import Mathlib

/-!
Verification of the page-image cache and preload scheduler of the portfolio
flip-book components.  The embedding follows the two source components:

* `PortfolioBook1` models `src/src/PortfolioBook1.jsx` — the cache (`pages`,
  a JS `Map`), the in-flight bookkeeping (`loadingPages` / `loadingQueue`,
  updated in lockstep and modelled as one set), the selection and processing
  logic of `preloadPagesAround` (lines 63–130), the init / error path
  (lines 133–193), the navigation handler (lines 242–247) and the unmount
  cleanup (lines 250–259).

* `PortfolioBook` models `src/src/PortfolioBook.jsx` — the page-splitting
  variant (`SPLIT_PAGES = true`): `loadPageImage` (lines 21–48),
  `preloadPagesAround` (lines 51–65), the page count doubling in `init`
  (lines 75–76) and `goToPage` (lines 106–110).

Page images are opaque payload strings.  Render calls that can fail are
oracles `Int → Option Image`: `none` models a per-page render error, which
`loadPageImage` (lines 56–59) catches and turns into `null`.
-/

namespace PortfolioBook1

abbrev Image := String

/-- The scheduler state: `cache` is the `pages` Map (insertion-ordered
association list, `Map.set` overwrites an existing key), `inflight` is the
set held by `loadingQueue` / `loadingPages`. -/
structure SchedState where
  cache : List (Int × Image)
  inflight : List Int
deriving Repr, DecidableEq

def emptySched : SchedState := ⟨[], []⟩

/-- JS `Map.prototype.get`. -/
def cacheGet (m : List (Int × Image)) (k : Int) : Option Image :=
  match m with
  | [] => none
  | (a, b) :: rest => if k = a then some b else cacheGet rest k

/-- JS `Map.prototype.set`: overwrite the entry when the key is present,
append a new entry otherwise. -/
def mapSet (m : List (Int × Image)) (k : Int) (v : Image) : List (Int × Image) :=
  if m.any (fun kv => decide (kv.1 = k)) then
    m.map (fun kv => if kv.1 = k then (k, v) else kv)
  else m ++ [(k, v)]

/-- JS `pages.has(idx)`. -/
def cacheHas (m : List (Int × Image)) (k : Int) : Bool := (cacheGet m k).isSome

/-- The sort key order used at line 87:
`pagesToLoad.sort((a, b) => Math.abs(a - currentIndex) - Math.abs(b - currentIndex))`.
JS `Array.prototype.sort` is a stable sort, so it is embedded as a stable
insertion sort by the key `|x - currentIndex|`. -/
def distLE (ci a b : Int) : Prop := (a - ci).natAbs ≤ (b - ci).natAbs

instance (ci : Int) : DecidableRel (distLE ci) := fun _ _ => Nat.decLe _ _

/-- The background window of lines 78–83: the loop
`for (let i = -PRELOAD_RANGE; i <= PRELOAD_RANGE + 1; i++)` with
`PRELOAD_RANGE = 2`, unrolled (`idx = currentIndex + i` for `i = -2 … 3`). -/
def backgroundWindow (ci : Int) : List Int :=
  [ci - 2, ci - 1, ci, ci + 1, ci + 2, ci + 3]

/-- The background filter of line 80:
`idx >= 0 && idx < pageCount && !pages.has(idx) && !loadingPages.has(idx)`. -/
def bgPred (st : SchedState) (pc idx : Int) : Bool :=
  decide (0 ≤ idx) && decide (idx < pc) && !(cacheHas st.cache idx) &&
    !(decide (idx ∈ st.inflight))

/-- The selection part of `preloadPagesAround` (lines 67–89): build
`pagesToLoad` (foreground: current index unconditionally, plus the next one
when `currentIndex + 1 < pageCount`; background: the filtered window), sort
by distance to `currentIndex`, then `slice(0, priority ? 2 : 4)`. -/
def selectPagesToLoad (st : SchedState) (ci pc : Int) (priority : Bool) : List Int :=
  let pagesToLoad : List Int :=
    if priority then [ci] ++ (if ci + 1 < pc then [ci + 1] else [])
    else (backgroundWindow ci).filter (bgPred st pc)
  (pagesToLoad.insertionSort (distLE ci)).take (if priority then 2 else 4)

/-- The `loadPage` closure (lines 96–114): render pdf page `idx + 1`
(`loadPageImage` returns `null` on failure), commit the image to the cache
when the result is truthy, and finally remove `idx` from the in-flight set. -/
def loadPage (render : Int → Option Image) (st : SchedState) (idx : Int) : SchedState :=
  match render (idx + 1) with
  | some img => ⟨mapSet st.cache idx img, st.inflight.filter (fun j => !(decide (j = idx)))⟩
  | none => ⟨st.cache, st.inflight.filter (fun j => !(decide (j = idx)))⟩

/-- The processing loop (lines 89–127) in the foreground case: for each
selected index, skip it when it is already in `loadingQueue`, otherwise mark
it in-flight and run `loadPage` immediately (`await loadPage()`, line 118)
before the next index is considered.  The second component records the
indices for which a render call was issued. -/
def runForeground (render : Int → Option Image) : SchedState → List Int → SchedState × List Int
  | st, [] => (st, [])
  | st, idx :: rest =>
    if idx ∈ st.inflight then runForeground render st rest
    else
      let st2 := loadPage render { st with inflight := idx :: st.inflight } idx
      let out := runForeground render st2 rest
      (out.1, idx :: out.2)

/-- The processing loop (lines 89–127) in the background case, first phase:
the loop body runs synchronously for every selected index — skip when
already in `loadingQueue`, else mark in-flight and enqueue `loadPage` via
`requestIdleCallback` / `setTimeout` (lines 121–125).  Returns the state
after all marks plus the queued jobs, in order. -/
def markJobs : SchedState → List Int → SchedState × List Int
  | st, [] => (st, [])
  | st, idx :: rest =>
    if idx ∈ st.inflight then markJobs st rest
    else
      let out := markJobs { st with inflight := idx :: st.inflight } rest
      (out.1, idx :: out.2)

/-- Second phase of the background case: the deferred `loadPage` callbacks
run, in queue order. -/
def runJobs (render : Int → Option Image) (st : SchedState) (jobs : List Int) : SchedState :=
  jobs.foldl (loadPage render) st

/-- One full `preloadPagesAround` pass over the scheduler state (the part of
lines 63–130 below the document guard): selection followed by processing.
The second component is the list of indices actually rendered. -/
def runPass (render : Int → Option Image) (st : SchedState) (ci pc : Int)
    (priority : Bool) : SchedState × List Int :=
  let sel := selectPagesToLoad st ci pc priority
  if priority then runForeground render st sel
  else
    let out := markJobs st sel
    (runJobs render out.1 out.2, out.2)

/-- Spec-modelled selection, following the spec text for the foreground
case: exactly `{currentIndex, currentIndex + 1}` intersected with
`[0, pageCount)`, in that order, capped at 2. -/
def selectForegroundSpec (ci pc : Int) : List Int :=
  ([ci, ci + 1].filter (fun x => decide (0 ≤ x) && decide (x < pc))).take 2

/-- Spec-modelled selection, following the spec text for the background
case: the window indices that survive the filter, listed by ascending
distance from `currentIndex` with ties broken by ascending index
(`ci, ci-1, ci+1, ci-2, ci+2, ci+3`), capped at 4. -/
def selectBackgroundSpec (st : SchedState) (ci pc : Int) : List Int :=
  ([ci, ci - 1, ci + 1, ci - 2, ci + 2, ci + 3].filter (bgPred st pc)).take 4

lemma natAbs_window_m2 (ci : Int) : (ci - 2 - ci).natAbs = 2 := by omega

lemma natAbs_window_m1 (ci : Int) : (ci - 1 - ci).natAbs = 1 := by omega

lemma natAbs_window_0 (ci : Int) : (ci - ci).natAbs = 0 := by omega

lemma natAbs_window_p1 (ci : Int) : (ci + 1 - ci).natAbs = 1 := by omega

lemma natAbs_window_p2 (ci : Int) : (ci + 2 - ci).natAbs = 2 := by omega

lemma natAbs_window_p3 (ci : Int) : (ci + 3 - ci).natAbs = 3 := by omega

/-- Stable sorting of any filtered sub-window of the ±2+1 window by distance
from `ci` yields the lexicographic (distance, index) order. -/
lemma insertionSort_window_filter (ci : Int) (q : Int → Bool) :
    List.insertionSort (distLE ci) ((backgroundWindow ci).filter q)
      = [ci, ci - 1, ci + 1, ci - 2, ci + 2, ci + 3].filter q := by
  cases hA : q (ci - 2) <;> cases hB : q (ci - 1) <;> cases hC : q ci <;>
    cases hD : q (ci + 1) <;> cases hE : q (ci + 2) <;> cases hF : q (ci + 3) <;>
      simp [backgroundWindow, hA, hB, hC, hD, hE, hF,
        List.insertionSort, List.orderedInsert, distLE,
        natAbs_window_m2, natAbs_window_m1, natAbs_window_0,
        natAbs_window_p1, natAbs_window_p2, natAbs_window_p3]

/-- Claim C2: for every state, current index and page count, background
selection returns exactly the in-bounds, uncached, not-in-flight indices of
the window `[currentIndex - 2, currentIndex + 3]`, sorted by ascending
distance from `currentIndex` with ties broken by ascending index, and capped
at 4 entries. -/
theorem background_selection_spec (st : SchedState) (ci pc : Int) :
    selectPagesToLoad st ci pc false = selectBackgroundSpec st ci pc := by
  have h := insertionSort_window_filter ci (bgPred st pc)
  simp [selectPagesToLoad, selectBackgroundSpec, h]

/-- The component-level state around the scheduler: the document handle
(`pdfRef`, carrying the page count when open), `pageCount`, the fatal error
state, and the scheduler state. -/
structure BookState where
  pdfNumPages : Option Int
  pageCount : Int
  error : Option String
  sched : SchedState
deriving Repr, DecidableEq

/-- The `init` effect (lines 133–193).  On `LoadError` (the catch at lines
180–186): the error state is set and neither the document handle nor the
page count is ever written.  On success: the handle and page count are set
and the first two pages are rendered eagerly (lines 160–169), each committed
only when truthy. -/
def init (render : Int → Option Image) : Except String Int → BookState
  | Except.error e => ⟨none, 0, some e, emptySched⟩
  | Except.ok n =>
    let st1 : SchedState := match render 1 with
      | some img => ⟨mapSet emptySched.cache 0 img, emptySched.inflight⟩
      | none => emptySched
    let st2 : SchedState := match render 2 with
      | some img => ⟨mapSet st1.cache 1 img, st1.inflight⟩
      | none => st1
    ⟨some n, n, none, st2⟩

/-- `preloadPagesAround` with its guard (line 65):
`if (!pdfRef.current || pageCount === 0) return;` -/
def preloadPagesAround (render : Int → Option Image) (b : BookState) (ci : Int)
    (priority : Bool) : SchedState × List Int :=
  if b.pdfNumPages.isNone || b.pageCount == 0 then (b.sched, [])
  else runPass render b.sched ci b.pageCount priority

/-- The background `preloadPagesAround` pass as run by the deferred callback
of line 246: the callback reuses the `preloadPagesAround` closure created at
the pre-event render, so the selection filter of line 80 reads the stale
pre-event `pages` / `loadingPages` snapshot (`selSnapshot`), while the
`loadingQueue.current` check of line 90 and the functional `setPages` /
`setLoadingPages` updates act on the live state (`b.sched`).  The guard of
line 65 reads the live `pdfRef` and the captured `pageCount` (which never
changes after `init`). -/
def backgroundPassStale (render : Int → Option Image) (b : BookState)
    (selSnapshot : SchedState) (ci : Int) : SchedState × List Int :=
  if b.pdfNumPages.isNone || b.pageCount == 0 then (b.sched, [])
  else
    let sel := selectPagesToLoad selSnapshot ci b.pageCount false
    let out := markJobs b.sched sel
    (runJobs render out.1 out.2, out.2)

/-- `handlePageChange` (lines 242–247), summarised by its effect on the
scheduler state: a foreground pass at the new index on the live state,
followed by the background pass deferred by `setTimeout(..., 200)`.  The
deferred callback closes over the pre-event render's state, so the
background selection sees the pre-event cache and in-flight snapshot
(`b.sched`), not the entries the foreground pass just added; its processing
and its commits act on the live post-foreground state.  Returns the final
state and the two render-call lists. -/
def handlePageChange (render : Int → Option Image) (b : BookState) (newPage : Int) :
    SchedState × List Int × List Int :=
  let fg := preloadPagesAround render b newPage true
  let bg := backgroundPassStale render { b with sched := fg.1 } b.sched newPage
  (bg.1, fg.2, bg.2)

/-- Claim C3, counterexample: the code pushes `currentIndex` into the
foreground selection without any bounds check, so with `currentIndex = 5`
and `pageCount = 3` the foreground selection is `[5]`, while the claimed
`{5, 6} ∩ [0, 3)` is empty — the returned index is out of bounds. -/
theorem foreground_selection_unbounded_counterexample :
    selectPagesToLoad emptySched 5 3 true = [5]
    ∧ selectForegroundSpec 5 3 = []
    ∧ ¬ ((5 : Int) < 3) := by decide

/-- Claim C3, amended: for every `currentIndex` that is itself within
`[0, pageCount)`, foreground selection returns exactly
`{currentIndex, currentIndex + 1} ∩ [0, pageCount)`, in that order, with at
most 2 entries.  (The code does not bounds-check `currentIndex` itself, so
the restriction to in-bounds `currentIndex` is necessary.) -/
theorem foreground_selection_spec (st : SchedState) (ci pc : Int)
    (h0 : 0 ≤ ci) (h1 : ci < pc) :
    selectPagesToLoad st ci pc true = selectForegroundSpec ci pc := by
  have h2 : 0 ≤ ci + 1 := by omega
  by_cases h3 : ci + 1 < pc <;>
    simp [selectPagesToLoad, selectForegroundSpec, h0, h1, h2, h3,
      List.insertionSort, List.orderedInsert, distLE,
      natAbs_window_0, natAbs_window_p1]

theorem foreground_selection_spec_witness :
    (0 : Int) ≤ 0 ∧ (0 : Int) < 10
    ∧ selectPagesToLoad emptySched 0 10 true = selectForegroundSpec 0 10 :=
  ⟨by decide, by decide, foreground_selection_spec emptySched 0 10 (by decide) (by decide)⟩

/-- The fully-successful render oracle used in the end-to-end scenario. -/
def allRender : Int → Option Image := fun _ => some "img"

/-- The component state of the end-to-end scenario: an open document with
10 pages and an initially empty cache. -/
def book10 : BookState := ⟨some 10, 10, none, emptySched⟩

/-- Claim C4: with `pageCount = 10` and an initially empty cache, navigating
to index 0 leaves exactly `{0, 1}` cached after the foreground pass, and
exactly `{0, 1, 2, 3}` after the deferred background pass — in particular
index 4 is never rendered.  Because the deferred pass's selection reads the
stale pre-navigation snapshot, its render calls are `[0, 1, 2, 3]` — it
re-requests 0 and 1 as well — but the re-renders overwrite those entries in
place, so the cache still ends at exactly `{0, 1, 2, 3}`. -/
theorem navigate_zero_scenario :
    (preloadPagesAround allRender book10 0 true).1.cache.map Prod.fst = [0, 1]
    ∧ (handlePageChange allRender book10 0).1.cache.map Prod.fst = [0, 1, 2, 3]
    ∧ (4 : Int) ∉ (handlePageChange allRender book10 0).1.cache.map Prod.fst
    ∧ (handlePageChange allRender book10 0).2.2 = [0, 1, 2, 3] := by decide

lemma cacheGet_map_overwrite (m : List (Int × Image)) (k i : Int) (v : Image) (h : i ≠ k) :
    cacheGet (m.map (fun kv => if kv.1 = k then (k, v) else kv)) i = cacheGet m i := by
  induction m with
  | nil => rfl
  | cons a rest ih =>
    obtain ⟨a1, a2⟩ := a
    rw [List.map_cons]
    by_cases hk : a1 = k
    · subst hk
      rw [show (if (a1, a2).1 = a1 then (a1, v) else (a1, a2)) = (a1, v) from if_pos rfl]
      show (if i = a1 then some v else cacheGet (rest.map _) i)
          = if i = a1 then some a2 else cacheGet rest i
      rw [if_neg h, if_neg h, ih]
    · rw [show (if (a1, a2).1 = k then (k, v) else (a1, a2)) = (a1, a2) from if_neg hk]
      show (if i = a1 then some a2 else cacheGet (rest.map _) i)
          = if i = a1 then some a2 else cacheGet rest i
      by_cases hia : i = a1
      · rw [if_pos hia, if_pos hia]
      · rw [if_neg hia, if_neg hia, ih]

lemma cacheGet_append_single_ne (m : List (Int × Image)) (k i : Int) (v : Image) (h : i ≠ k) :
    cacheGet (m ++ [(k, v)]) i = cacheGet m i := by
  induction m with
  | nil => simp [cacheGet, h]
  | cons a rest ih =>
    obtain ⟨a1, a2⟩ := a
    by_cases hia : i = a1 <;> simp [cacheGet, hia, ih]

/-- `Map.set` at key `k` does not change the entry of any other key. -/
lemma cacheGet_mapSet_ne (m : List (Int × Image)) (k i : Int) (v : Image) (h : i ≠ k) :
    cacheGet (mapSet m k v) i = cacheGet m i := by
  unfold mapSet
  split
  · exact cacheGet_map_overwrite m k i v h
  · exact cacheGet_append_single_ne m k i v h

/-- `loadPage idx` does not change the cache entry of any other index. -/
lemma loadPage_cacheGet_ne (render : Int → Option Image) (st : SchedState) (idx i : Int)
    (h : i ≠ idx) :
    cacheGet (loadPage render st idx).cache i = cacheGet st.cache i := by
  cases hr : render (idx + 1) with
  | none => simp [loadPage, hr]
  | some img => simp [loadPage, hr, cacheGet_mapSet_ne st.cache idx i img h]

/-- `loadPage` never adds anything to the in-flight set. -/
lemma loadPage_inflight_subset (render : Int → Option Image) (st : SchedState) (idx i : Int)
    (h : i ∈ (loadPage render st idx).inflight) : i ∈ st.inflight := by
  cases hr : render (idx + 1) with
  | none => simp [loadPage, hr] at h; exact h.1
  | some img => simp [loadPage, hr] at h; exact h.1

/-- `loadPage idx` removes `idx` from the in-flight set. -/
lemma loadPage_inflight_self (render : Int → Option Image) (st : SchedState) (idx : Int) :
    idx ∉ (loadPage render st idx).inflight := by
  intro h
  cases hr : render (idx + 1) with
  | none => simp [loadPage, hr] at h
  | some img => simp [loadPage, hr] at h

/-- `loadPage idx` keeps every other index of the in-flight set. -/
lemma loadPage_inflight_keep (render : Int → Option Image) (st : SchedState) (idx i : Int)
    (h : i ∈ st.inflight) (hne : i ≠ idx) : i ∈ (loadPage render st idx).inflight := by
  cases hr : render (idx + 1) with
  | none => simp [loadPage, hr]; exact ⟨h, hne⟩
  | some img => simp [loadPage, hr]; exact ⟨h, hne⟩

/-- While `i` is in-flight, a foreground processing loop never issues a
render call for `i`, never changes the cache entry of `i`, and leaves `i`
in-flight. -/
lemma runForeground_inflight_frame (render : Int → Option Image) (i : Int) :
    ∀ (l : List Int) (st : SchedState), i ∈ st.inflight →
      i ∉ (runForeground render st l).2
      ∧ cacheGet (runForeground render st l).1.cache i = cacheGet st.cache i
      ∧ i ∈ (runForeground render st l).1.inflight := by
  intro l
  induction l with
  | nil => intro st hi; exact ⟨by simp [runForeground], rfl, hi⟩
  | cons idx rest ih =>
    intro st hi
    by_cases h : idx ∈ st.inflight
    · have hr := ih st hi
      simp only [runForeground, if_pos h]
      exact hr
    · have hne : i ≠ idx := fun he => h (he ▸ hi)
      have hi2 : i ∈ (loadPage render { st with inflight := idx :: st.inflight } idx).inflight :=
        loadPage_inflight_keep render _ idx i (List.mem_cons_of_mem idx hi) hne
      have hr := ih (loadPage render { st with inflight := idx :: st.inflight } idx) hi2
      simp only [runForeground, if_neg h]
      refine ⟨?_, ?_, hr.2.2⟩
      · intro hmem
        rcases List.mem_cons.mp hmem with he | he
        · exact hne he
        · exact hr.1 he
      · rw [hr.2.1]
        exact loadPage_cacheGet_ne render _ idx i hne

/-- While `i` is in-flight, the marking phase of a background pass never
enqueues a job for `i`, does not touch the cache, and keeps `i` in-flight. -/
lemma markJobs_inflight_frame (i : Int) :
    ∀ (l : List Int) (st : SchedState), i ∈ st.inflight →
      i ∉ (markJobs st l).2
      ∧ (markJobs st l).1.cache = st.cache
      ∧ i ∈ (markJobs st l).1.inflight := by
  intro l
  induction l with
  | nil => intro st hi; exact ⟨by simp [markJobs], rfl, hi⟩
  | cons idx rest ih =>
    intro st hi
    by_cases h : idx ∈ st.inflight
    · have hr := ih st hi
      simp only [markJobs, if_pos h]
      exact hr
    · have hne : i ≠ idx := fun he => h (he ▸ hi)
      have hr := ih { st with inflight := idx :: st.inflight } (List.mem_cons_of_mem idx hi)
      simp only [markJobs, if_neg h]
      refine ⟨?_, hr.2.1, hr.2.2⟩
      intro hmem
      rcases List.mem_cons.mp hmem with he | he
      · exact hne he
      · exact hr.1 he

/-- Jobs enqueued by the marking phase all come from the selection list. -/
lemma markJobs_jobs_subset (i : Int) :
    ∀ (l : List Int) (st : SchedState), i ∈ (markJobs st l).2 → i ∈ l := by
  intro l
  induction l with
  | nil => intro st h; simp [markJobs] at h
  | cons idx rest ih =>
    intro st h
    by_cases hc : idx ∈ st.inflight
    · simp only [markJobs, if_pos hc] at h
      exact List.mem_cons_of_mem idx (ih st h)
    · simp only [markJobs, if_neg hc] at h
      rcases List.mem_cons.mp h with he | he
      · exact he ▸ List.mem_cons_self idx rest
      · exact List.mem_cons_of_mem idx (ih _ he)

/-- The marking phase never touches the cache. -/
lemma markJobs_cache : ∀ (l : List Int) (st : SchedState), (markJobs st l).1.cache = st.cache := by
  intro l
  induction l with
  | nil => intro st; rfl
  | cons idx rest ih =>
    intro st
    by_cases hc : idx ∈ st.inflight
    · simp only [markJobs, if_pos hc]; exact ih st
    · simp only [markJobs, if_neg hc]; exact ih _

/-- Running deferred jobs that do not mention `i` leaves the cache entry of
`i` unchanged. -/
lemma runJobs_cacheGet_ne (render : Int → Option Image) (i : Int) :
    ∀ (jobs : List Int) (st : SchedState), i ∉ jobs →
      cacheGet (runJobs render st jobs).cache i = cacheGet st.cache i := by
  intro jobs
  induction jobs with
  | nil => intro st _; rfl
  | cons idx rest ih =>
    intro st h
    have hne : i ≠ idx := fun he => h (he ▸ List.mem_cons_self idx rest)
    have hrest : i ∉ rest := fun he => h (List.mem_cons_of_mem idx he)
    show cacheGet (runJobs render (loadPage render st idx) rest).cache i = _
    rw [ih _ hrest]
    exact loadPage_cacheGet_ne render st idx i hne

/-- Claim C1 counterexample: a foreground render request for an index that
already has a completed cache entry is not a no-op.  Starting from a state
whose cache holds `(0, "A")`, a foreground pass at index 0 issues a second
render call for index 0 and overwrites the completed entry with the new
image `"B"`. -/
theorem cached_foreground_rerender_counterexample :
    cacheHas ([((0 : Int), "A")]) 0 = true
    ∧ (0 : Int) ∈ (runPass (fun _ => some "B") ⟨[(0, "A")], []⟩ 0 10 true).2
    ∧ cacheGet (runPass (fun _ => some "B") ⟨[(0, "A")], []⟩ 0 10 true).1.cache 0 = some "B" := by
  decide

/-- Claim C1, amended: a render request for an index `i` that is already
in-flight is a no-op in either priority class (no render call for `i`, cache
entry of `i` unchanged), and a background request for an index `j` that is
already cached is a no-op (no render call for `j`, cache entry of `j`
unchanged).  A foreground request for a cached index that is not in-flight,
however, re-renders it and overwrites the completed entry (see the
counterexample). -/
theorem inflight_and_background_cached_noop (st : SchedState)
    (render : Int → Option Image) (ci pc : Int) (priority : Bool) (i j : Int)
    (hi : i ∈ st.inflight) (hj : cacheHas st.cache j = true) :
    i ∉ (runPass render st ci pc priority).2
    ∧ cacheGet (runPass render st ci pc priority).1.cache i = cacheGet st.cache i
    ∧ j ∉ (runPass render st ci pc false).2
    ∧ cacheGet (runPass render st ci pc false).1.cache j = cacheGet st.cache j := by
  have hjsel : j ∉ selectPagesToLoad st ci pc false := by
    intro hmem
    have h0 : j ∈ (((backgroundWindow ci).filter (bgPred st pc)).insertionSort
        (distLE ci)).take 4 := hmem
    have h1 := List.mem_of_mem_take h0
    have h2 : j ∈ (backgroundWindow ci).filter (bgPred st pc) :=
      (List.perm_insertionSort (distLE ci) _).mem_iff.mp h1
    have h3 := (List.mem_filter.mp h2).2
    simp [bgPred, hj] at h3
  have hbg2 : ∀ x : Int, x ∉ (markJobs st (selectPagesToLoad st ci pc false)).2 →
      cacheGet (runPass render st ci pc false).1.cache x = cacheGet st.cache x := by
    intro x hx
    have h4 : cacheGet (runJobs render (markJobs st (selectPagesToLoad st ci pc false)).1
        (markJobs st (selectPagesToLoad st ci pc false)).2).cache x
        = cacheGet st.cache x := by
      rw [runJobs_cacheGet_ne render x _ _ hx, markJobs_cache]
    exact h4
  have hjjob : j ∉ (markJobs st (selectPagesToLoad st ci pc false)).2 :=
    fun hm => hjsel (markJobs_jobs_subset j _ st hm)
  cases priority with
  | true =>
    have hf := runForeground_inflight_frame render i (selectPagesToLoad st ci pc true) st hi
    exact ⟨fun hmem => hf.1 hmem, hf.2.1,
      fun hmem => hjjob hmem, hbg2 j hjjob⟩
  | false =>
    have hm := markJobs_inflight_frame i (selectPagesToLoad st ci pc false) st hi
    exact ⟨fun hmem => hm.1 hmem, hbg2 i hm.1,
      fun hmem => hjjob hmem, hbg2 j hjjob⟩

theorem inflight_and_background_cached_noop_witness :
    (7 : Int) ∈ ([7] : List Int)
    ∧ cacheHas ([((0 : Int), "A")]) 0 = true
    ∧ ((7 : Int) ∉ (runPass (fun _ => some "B") ⟨[(0, "A")], [7]⟩ 5 10 false).2
       ∧ cacheGet (runPass (fun _ => some "B") ⟨[(0, "A")], [7]⟩ 5 10 false).1.cache 7
           = cacheGet [((0 : Int), "A")] 7
       ∧ (0 : Int) ∉ (runPass (fun _ => some "B") ⟨[(0, "A")], [7]⟩ 5 10 false).2
       ∧ cacheGet (runPass (fun _ => some "B") ⟨[(0, "A")], [7]⟩ 5 10 false).1.cache 0
           = cacheGet [((0 : Int), "A")] 0) :=
  ⟨by decide, by decide,
    inflight_and_background_cached_noop ⟨[(0, "A")], [7]⟩ (fun _ => some "B") 5 10 false 7 0
      (by decide) (by decide)⟩

/-- If the render of pdf page `i + 1` fails, `loadPage` never creates a
cache entry for `i` (whatever index it processes). -/
lemma loadPage_cacheGet_none (render : Int → Option Image) (st : SchedState) (idx i : Int)
    (hf : render (i + 1) = none) (hc : cacheGet st.cache i = none) :
    cacheGet (loadPage render st idx).cache i = none := by
  by_cases h : idx = i
  · subst h
    simp [loadPage, hf, hc]
  · rw [loadPage_cacheGet_ne render st idx i (fun he => h he.symm)]
    exact hc

lemma runJobs_cacheGet_none (render : Int → Option Image) (i : Int)
    (hf : render (i + 1) = none) :
    ∀ (jobs : List Int) (st : SchedState), cacheGet st.cache i = none →
      cacheGet (runJobs render st jobs).cache i = none := by
  intro jobs
  induction jobs with
  | nil => intro st hc; exact hc
  | cons idx rest ih =>
    intro st hc
    exact ih (loadPage render st idx) (loadPage_cacheGet_none render st idx i hf hc)

/-- Running the deferred jobs leaves `i` out of the in-flight set provided
`i` is one of the jobs (its own `loadPage` removes it and nothing re-adds
it) or was not in-flight to begin with. -/
lemma runJobs_inflight_out (render : Int → Option Image) (i : Int) :
    ∀ (jobs : List Int) (st : SchedState), (i ∈ jobs ∨ i ∉ st.inflight) →
      i ∉ (runJobs render st jobs).inflight := by
  intro jobs
  induction jobs with
  | nil =>
    intro st h hm
    rcases h with h | h
    · simp at h
    · exact h hm
  | cons idx rest ih =>
    intro st h
    by_cases hii : i = idx
    · subst hii
      exact ih (loadPage render st i) (Or.inr (loadPage_inflight_self render st i))
    · rcases h with h | h
      · rcases List.mem_cons.mp h with h2 | h2
        · exact absurd h2 hii
        · exact ih (loadPage render st idx) (Or.inl h2)
      · refine ih (loadPage render st idx) (Or.inr ?_)
        intro hm
        exact h (loadPage_inflight_subset render st idx i hm)

/-- After the marking phase, any selected index that was not already
in-flight got enqueued as a job. -/
lemma markJobs_mem_jobs (i : Int) :
    ∀ (l : List Int) (st : SchedState), i ∈ l →
      i ∈ (markJobs st l).2 ∨ i ∈ st.inflight := by
  intro l
  induction l with
  | nil => intro st h; simp at h
  | cons idx rest ih =>
    intro st h
    by_cases hc : idx ∈ st.inflight
    · rcases List.mem_cons.mp h with he | he
      · exact Or.inr (he ▸ hc)
      · rcases ih st he with hj | hj
        · left; simp only [markJobs, if_pos hc]; exact hj
        · exact Or.inr hj
    · rcases List.mem_cons.mp h with he | he
      · left
        simp [markJobs, hc]
        exact Or.inl he
      · rcases ih { st with inflight := idx :: st.inflight } he with hj | hj
        · left
          simp [markJobs, hc]
          exact Or.inr hj
        · rcases List.mem_cons.mp hj with h2 | h2
          · left
            simp [markJobs, hc]
            exact Or.inl h2
          · exact Or.inr h2

/-- The marking phase adds to the in-flight set only indices it also
enqueued as jobs. -/
lemma markJobs_inflight_mem (i : Int) :
    ∀ (l : List Int) (st : SchedState), i ∈ (markJobs st l).1.inflight →
      i ∈ st.inflight ∨ i ∈ (markJobs st l).2 := by
  intro l
  induction l with
  | nil => intro st h; exact Or.inl h
  | cons idx rest ih =>
    intro st h
    by_cases hc : idx ∈ st.inflight
    · simp only [markJobs, if_pos hc] at h ⊢
      exact ih st h
    · simp [markJobs, hc] at h ⊢
      rcases ih { st with inflight := idx :: st.inflight } h with h2 | h2
      · rcases List.mem_cons.mp h2 with h3 | h3
        · exact Or.inr (Or.inl h3)
        · exact Or.inl h3
      · exact Or.inr (Or.inr h2)

/-- If the render of a page fails, a foreground processing loop leaves no
cache entry and no in-flight entry for its index. -/
lemma runForeground_failure_frame (render : Int → Option Image) (i : Int)
    (hf : render (i + 1) = none) :
    ∀ (l : List Int) (st : SchedState), cacheGet st.cache i = none → i ∉ st.inflight →
      cacheGet (runForeground render st l).1.cache i = none
      ∧ i ∉ (runForeground render st l).1.inflight := by
  intro l
  induction l with
  | nil => intro st hc hi; exact ⟨hc, hi⟩
  | cons idx rest ih =>
    intro st hc hi
    by_cases h : idx ∈ st.inflight
    · simp only [runForeground, if_pos h]
      exact ih st hc hi
    · have h1 : cacheGet (loadPage render { st with inflight := idx :: st.inflight } idx).cache i
          = none := loadPage_cacheGet_none render _ idx i hf hc
      have h2 : i ∉ (loadPage render { st with inflight := idx :: st.inflight } idx).inflight := by
        by_cases hii : i = idx
        · subst hii; exact loadPage_inflight_self render _ i
        · intro hm
          rcases List.mem_cons.mp (loadPage_inflight_subset render _ idx i hm) with h3 | h3
          · exact hii h3
          · exact hi h3
      have h4 := ih (loadPage render { st with inflight := idx :: st.inflight } idx) h1 h2
      simp only [runForeground, if_neg h]
      exact h4

/-- Claim C5: when the render of page index `i` fails (`RenderError`, the
oracle returns `none` for pdf page `i + 1`), any pass settles with no cache
entry for `i` and no in-flight entry for `i` — the failure is contained
(`loadPageImage` catches it and the model is a total function) — and `i`
satisfies the background selection filter again, i.e. it stays eligible for
a later retry. -/
theorem render_failure_cleanup (st : SchedState) (render : Int → Option Image)
    (ci pc : Int) (priority : Bool) (i : Int)
    (hf : render (i + 1) = none)
    (hc : cacheGet st.cache i = none) (hi : i ∉ st.inflight) :
    cacheGet (runPass render st ci pc priority).1.cache i = none
    ∧ i ∉ (runPass render st ci pc priority).1.inflight
    ∧ (0 ≤ i → i < pc → bgPred (runPass render st ci pc priority).1 pc i = true) := by
  have key : cacheGet (runPass render st ci pc priority).1.cache i = none
      ∧ i ∉ (runPass render st ci pc priority).1.inflight := by
    cases priority with
    | true =>
      exact runForeground_failure_frame render i hf (selectPagesToLoad st ci pc true) st hc hi
    | false =>
      constructor
      · have h1 : cacheGet (markJobs st (selectPagesToLoad st ci pc false)).1.cache i = none := by
          rw [markJobs_cache]; exact hc
        exact runJobs_cacheGet_none render i hf
          (markJobs st (selectPagesToLoad st ci pc false)).2
          (markJobs st (selectPagesToLoad st ci pc false)).1 h1
      · refine runJobs_inflight_out render i
          (markJobs st (selectPagesToLoad st ci pc false)).2
          (markJobs st (selectPagesToLoad st ci pc false)).1 ?_
        by_cases hj : i ∈ (markJobs st (selectPagesToLoad st ci pc false)).2
        · exact Or.inl hj
        · right
          intro hm
          rcases markJobs_inflight_mem i (selectPagesToLoad st ci pc false) st hm with h2 | h2
          · exact hi h2
          · exact hj h2
  refine ⟨key.1, key.2, ?_⟩
  intro h0 h1
  simp [bgPred, cacheHas, key.1, key.2, h0, h1]

/-- A render oracle that fails exactly on pdf page 5 (page index 4). -/
def failRender : Int → Option Image := fun p => if p = 5 then none else some "X"

theorem render_failure_cleanup_witness :
    failRender (4 + 1) = none
    ∧ cacheGet emptySched.cache 4 = none
    ∧ (4 : Int) ∉ emptySched.inflight
    ∧ (cacheGet (runPass failRender emptySched 4 10 false).1.cache 4 = none
       ∧ (4 : Int) ∉ (runPass failRender emptySched 4 10 false).1.inflight
       ∧ ((0 : Int) ≤ 4 → (4 : Int) < 10 →
            bgPred (runPass failRender emptySched 4 10 false).1 10 4 = true)) :=
  ⟨by decide, by decide, by decide,
    render_failure_cleanup emptySched failRender 4 10 false 4 (by decide) (by decide) (by decide)⟩

/-- Claim C7: if opening the document fails (`LoadError`), `init` reports
the user-visible error state and leaves no document handle and a zero page
count; and whenever the document handle is absent or the page count is
zero, a preload pass is a no-op thanks to the guard at line 65 — the
scheduler state is unchanged and no render call is issued. -/
theorem load_error_no_scheduling (render render2 : Int → Option Image) (e : String)
    (ci : Int) (priority : Bool) (b : BookState)
    (hb : b.pdfNumPages = none ∨ b.pageCount = 0) :
    (init render (Except.error e)).error = some e
    ∧ (init render (Except.error e)).pdfNumPages = none
    ∧ (init render (Except.error e)).pageCount = 0
    ∧ (init render (Except.error e)).sched = emptySched
    ∧ preloadPagesAround render2 b ci priority = (b.sched, []) := by
  refine ⟨rfl, rfl, rfl, rfl, ?_⟩
  unfold preloadPagesAround
  rcases hb with h | h <;> simp [h]

theorem load_error_no_scheduling_witness :
    ((init allRender (Except.error "failed")).pdfNumPages = none ∨
      (init allRender (Except.error "failed")).pageCount = 0)
    ∧ ((init allRender (Except.error "failed")).error = some "failed"
       ∧ (init allRender (Except.error "failed")).pdfNumPages = none
       ∧ (init allRender (Except.error "failed")).pageCount = 0
       ∧ (init allRender (Except.error "failed")).sched = emptySched
       ∧ preloadPagesAround allRender (init allRender (Except.error "failed")) 0 true
           = ((init allRender (Except.error "failed")).sched, [])) :=
  ⟨Or.inl rfl,
    load_error_no_scheduling allRender allRender "failed" 0 true
      (init allRender (Except.error "failed")) (Or.inl rfl)⟩

/-- The component state relevant to disposal: whether the component is
still mounted, the cache, and the multiset of image payloads whose blob
URLs have been revoked. -/
structure CompState where
  mounted : Bool
  cache : List (Int × Image)
  revoked : List Image
deriving Repr, DecidableEq

/-- The blob test of line 254, `imageData.startsWith('blob:')`, embedded as
a character-prefix comparison. -/
def isBlobUrl (s : Image) : Bool := s.data.take 5 == "blob:".data

/-- The unmount cleanup (lines 250–259): for every cached payload that is a
blob URL, `URL.revokeObjectURL` is called; afterwards the component is
unmounted. -/
def dispose (c : CompState) : CompState :=
  ⟨false, c.cache, c.revoked ++ (c.cache.map Prod.snd).filter isBlobUrl⟩

/-- A render completing commits its image through the framework state
setter `setPages` (line 102); the framework discards state updates arriving
after unmount, so a completion after `dispose` leaves the cache unchanged. -/
def commitRender (c : CompState) (idx : Int) (img : Image) : CompState :=
  if c.mounted then ⟨c.mounted, mapSet c.cache idx img, c.revoked⟩ else c

/-- Claim C6: `dispose` is safe while renders are in flight — a render
completing after disposal is discarded and never inserted into the cache —
and every previously cached payload that is a blob URL has been revoked by
the disposal cleanup. -/
theorem dispose_discards_and_revokes (c : CompState) (idx : Int) (img p : Image)
    (hp : p ∈ c.cache.map Prod.snd) (hblob : isBlobUrl p = true) :
    (commitRender (dispose c) idx img).cache = (dispose c).cache
    ∧ (commitRender (dispose c) idx img).mounted = false
    ∧ p ∈ (dispose c).revoked := by
  refine ⟨rfl, rfl, ?_⟩
  unfold dispose
  exact List.mem_append_right _ (List.mem_filter.mpr ⟨hp, hblob⟩)

theorem dispose_discards_and_revokes_witness :
    ("blob:7" : Image) ∈ (List.map Prod.snd [((0 : Int), ("blob:7" : Image))])
    ∧ isBlobUrl "blob:7" = true
    ∧ ((commitRender (dispose ⟨true, [(0, "blob:7")], []⟩) 1 "d").cache
         = (dispose ⟨true, [(0, "blob:7")], []⟩).cache
       ∧ (commitRender (dispose ⟨true, [(0, "blob:7")], []⟩) 1 "d").mounted = false
       ∧ ("blob:7" : Image) ∈ (dispose ⟨true, [(0, "blob:7")], []⟩).revoked) :=
  ⟨by decide, by decide,
    dispose_discards_and_revokes ⟨true, [(0, "blob:7")], []⟩ 1 "d" "blob:7"
      (by decide) (by decide)⟩

/-- The observable event timeline of one `handlePageChange(newPage)` call
(lines 242–247), with time in milliseconds from the call: `setCurrentPage`
runs synchronously, the foreground `preloadPagesAround(newPage, true)` call
is issued synchronously but its returned promise is not awaited, and
`setTimeout` schedules the background pass 200 ms after the call —
independently of when the foreground pass finishes. -/
structure NavTrace where
  setIndexTime : Nat
  setIndexValue : Int
  fgStartTime : Nat
  fgEndTime : Nat
  bgStartTime : Nat
deriving Repr, DecidableEq

def handlePageChangeTrace (t0 : Nat) (newPage : Int) (fgDuration : Nat) : NavTrace :=
  ⟨t0, newPage, t0, t0 + fgDuration, t0 + 200⟩

/-- Claim C8 counterexample: the foreground pass is not awaited before the
background pass is scheduled — `handlePageChange` fires `setTimeout(..., 200)`
immediately, so a foreground pass taking 300 ms is still running when the
background pass starts. -/
theorem background_before_foreground_completes_counterexample :
    (handlePageChangeTrace 0 3 300).bgStartTime < (handlePageChangeTrace 0 3 300).fgEndTime := by
  decide

/-- Claim C8, amended: `handlePageChange` updates the current index first,
then triggers the foreground pass, and the background pass starts exactly
200 ms after the foreground pass was triggered — hence never before the
foreground pass has been triggered — but the foreground pass is not awaited,
so the background pass can start before the foreground pass completes (see
the counterexample). -/
theorem navigation_event_order (t0 : Nat) (newPage : Int) (fgDuration : Nat) :
    (handlePageChangeTrace t0 newPage fgDuration).setIndexTime
      ≤ (handlePageChangeTrace t0 newPage fgDuration).fgStartTime
    ∧ (handlePageChangeTrace t0 newPage fgDuration).setIndexValue = newPage
    ∧ (handlePageChangeTrace t0 newPage fgDuration).fgStartTime
      ≤ (handlePageChangeTrace t0 newPage fgDuration).bgStartTime
    ∧ (handlePageChangeTrace t0 newPage fgDuration).bgStartTime
      = (handlePageChangeTrace t0 newPage fgDuration).fgStartTime + 200 := by
  refine ⟨le_refl _, rfl, ?_, rfl⟩
  simp [handlePageChangeTrace]

end PortfolioBook1

namespace PortfolioBook

/-- Which part of a pdf page an image shows. -/
inductive Half where
  | left
  | right
  | full
deriving DecidableEq, Repr

/-- An abstract rendered image: the pdf page it came from and which part of
that page it shows. -/
structure HalfImage where
  pdfPage : Int
  side : Half
deriving DecidableEq, Repr

def SPLIT_PAGES : Bool := true

/-- `loadPageImage` (lines 21–48): render pdf page `pdfPageNum`; with
`SPLIT_PAGES` the canvas is split in half and `[left, right]` data URLs are
returned, otherwise a single whole-page data URL. -/
def loadPageImage (pdfPageNum : Int) : List HalfImage :=
  if SPLIT_PAGES then [⟨pdfPageNum, Half.left⟩, ⟨pdfPageNum, Half.right⟩]
  else [⟨pdfPageNum, Half.full⟩]

/-- JS object lookup `pages[idx]`. -/
def pagesGet (pages : List (Int × HalfImage)) (k : Int) : Option HalfImage :=
  match pages with
  | [] => none
  | (a, b) :: rest => if k = a then some b else pagesGet rest k

/-- The image stored for slot `idx` (lines 58–61):
`pdfPageNum = SPLIT_PAGES ? Math.floor(idx / 2) + 1 : idx + 1`, and the
stored image is `arr[idx % 2]` in the split case, `arr[0]` otherwise.
For `idx ≥ 0` (guaranteed by the bounds check at line 56) JS
`Math.floor(idx / 2)` and `idx % 2` agree with integer `/` and `%`. -/
def renderSlot (idx : Int) : HalfImage :=
  let pdfPageNum := if SPLIT_PAGES then idx / 2 + 1 else idx + 1
  let arr := loadPageImage pdfPageNum
  if SPLIT_PAGES then arr.getD (idx % 2).toNat ⟨0, Half.full⟩
  else arr.getD 0 ⟨0, Half.full⟩

/-- The body of the preload loop (lines 55–63) for one index: skip when out
of bounds (line 56) or already present (line 57); otherwise render the slot
and store it under `idx`. -/
def preloadStep (pc : Int) (pages : List (Int × HalfImage)) (idx : Int) :
    List (Int × HalfImage) :=
  if idx < 0 ∨ pc ≤ idx then pages
  else if (pagesGet pages idx).isSome then pages
  else pages ++ [(idx, renderSlot idx)]

/-- `preloadPagesAround` (lines 51–65): processes the indices
`[currentIndex, currentIndex + 1, currentIndex + 2]`, in order. -/
def preloadPagesAround (pc : Int) (pages : List (Int × HalfImage)) (ci : Int) :
    List (Int × HalfImage) :=
  preloadStep pc (preloadStep pc (preloadStep pc pages ci) (ci + 1)) (ci + 2)

/-- The page count set by `init` (lines 75–76):
`SPLIT_PAGES ? pdf.numPages * 2 : pdf.numPages`; the flip book then renders
exactly that many slots (line 150). -/
def pageCountOf (numPages : Int) : Int :=
  if SPLIT_PAGES then numPages * 2 else numPages

/-- The image the claim predicts for slot `idx`: pdf page
`floor(idx / 2) + 1`, its left half when `idx` is even, its right half when
`idx` is odd. -/
def expectedImage (idx : Int) : HalfImage :=
  ⟨idx / 2 + 1, if idx % 2 = 0 then Half.left else Half.right⟩

/-- Every cached entry is in bounds and holds the predicted half-page. -/
def goodCache (pages : List (Int × HalfImage)) (pc : Int) : Prop :=
  ∀ e ∈ pages, 0 ≤ e.1 ∧ e.1 < pc ∧ e.2 = expectedImage e.1

lemma renderSlot_eq (idx : Int) (_h0 : 0 ≤ idx) : renderSlot idx = expectedImage idx := by
  unfold renderSlot loadPageImage SPLIT_PAGES expectedImage
  have h2 : idx % 2 = 0 ∨ idx % 2 = 1 := by omega
  rcases h2 with h2 | h2 <;> simp [h2]

lemma preloadStep_good (pc : Int) (pages : List (Int × HalfImage)) (idx : Int)
    (h : goodCache pages pc) : goodCache (preloadStep pc pages idx) pc := by
  unfold preloadStep
  by_cases hb : idx < 0 ∨ pc ≤ idx
  · rw [if_pos hb]; exact h
  · rw [if_neg hb]
    by_cases hcached : (pagesGet pages idx).isSome
    · rw [if_pos hcached]; exact h
    · rw [if_neg hcached]
      intro e he
      rcases List.mem_append.mp he with h1 | h2
      · exact h e h1
      · have he2 := List.mem_singleton.mp h2
        subst he2
        refine ⟨?_, ?_, ?_⟩
        · show (0 : Int) ≤ idx
          omega
        · show idx < pc
          omega
        · show renderSlot idx = expectedImage idx
          exact renderSlot_eq idx (by omega)

/-- Claim C9: in the page-splitting variant the displayed sequence has
exactly `2 * numPages` slots, and every cached slot `idx` holds the image
rendered from pdf page `floor(idx / 2) + 1` — the left half when `idx` is
even and the right half when `idx` is odd.  The cache property is an
invariant of `preloadPagesAround`, hence holds for every cache reachable
from the empty one. -/
theorem split_pages_mapping (numPages : Int) (pages : List (Int × HalfImage))
    (pc ci : Int) (h : goodCache pages pc) :
    pageCountOf numPages = 2 * numPages
    ∧ goodCache (preloadPagesAround pc pages ci) pc := by
  constructor
  · unfold pageCountOf SPLIT_PAGES
    simp
    omega
  · exact preloadStep_good pc _ (ci + 2)
      (preloadStep_good pc _ (ci + 1) (preloadStep_good pc pages ci h))

theorem split_pages_mapping_witness :
    goodCache ([] : List (Int × HalfImage)) 6
    ∧ (pageCountOf 3 = 2 * 3 ∧ goodCache (preloadPagesAround 6 [] 0) 6) :=
  ⟨by simp [goodCache], split_pages_mapping 3 [] 6 0 (by simp [goodCache])⟩

/-- `goToPage` (lines 106–110): the navigation target for a 1-based page
number is `Math.max(0, Math.min(pageCount - 1, pageNumber - 1))`. -/
def goToPage (pc pageNumber : Int) : Int := max 0 (min (pc - 1) (pageNumber - 1))

/-- Claim C10: for every user-supplied page number — zero, negative or
greater than `pageCount` included — the go-to-page target is clamped into
`[0, pageCount - 1]`, so an out-of-range input never produces an
out-of-bounds navigation target (for a displayable document,
`pageCount > 0`). -/
theorem goToPage_clamped (pc n : Int) (h : 0 < pc) :
    0 ≤ goToPage pc n ∧ goToPage pc n ≤ pc - 1 := by
  unfold goToPage
  omega

theorem goToPage_clamped_witness :
    (0 : Int) < 20 ∧ (0 ≤ goToPage 20 (-5) ∧ goToPage 20 (-5) ≤ 20 - 1) :=
  ⟨by decide, goToPage_clamped 20 (-5) (by decide)⟩

end PortfolioBook
